import Mathlib

/-!
Verification development for the Sales-Data-Processor cleaning pipeline
(`src/data_cleaner.py`, function `clean_data`, plus its per-row helper
`convert_to_usd`).

Shallow embedding conventions:
* a pandas cell is a `Value`: missing (`None`/`NaN`/`NaT`), a rational
  number (floats are modelled by `ℚ`), or a string;
* the working DataFrame is a `List Row` over the seven required columns
  (extra input columns are ignored by every pipeline stage, per the code,
  so they are not modelled);
* the raw input DataFrame is a `RawTable`: each required column is either
  present (a list of cells) or absent, as `clean_data` must synthesize
  absent columns;
* the exchange-rate dict is an association list `List (String × Value)`
  (its values come from parsed JSON, so they are arbitrary cells);
* Python exceptions raised inside `convert_to_usd` are modelled by
  `Except PyErr`; the `except (ValueError, TypeError)` clause catches
  exactly those two constructors, and any other exception propagates out
  of `clean_data` (aborting the run);
* `print` warnings that describe data degradation are collected into a
  `List String` result component; purely informational progress prints
  are not modelled;
* writing the CSV file is I/O outside the cleaned-table semantics; the
  wall-clock-stamped file name is modelled in `clean_data_run` by an
  explicit `now` parameter.
-/

namespace SalesPipeline

/-!
Rational arithmetic and string normalization are routed through
kernel-computable equivalents of the library operations (the library's
`Rat.mul`, `Rat.add`, `Rat.inv` are `@[irreducible]`, and `String.toUpper`
/ `String.trim` go through `Substring` code that does not reduce), so that
concrete runs of the pipeline can be settled by `decide`.  The theorems
`qmul_eq_mul`, `qadd_eq_add` and `qdiv_eq_div` below prove these
equivalents extensionally equal to `*`, `+` and `/` on `ℚ`, so nothing is
changed semantically.
-/

/-- Kernel-computable multiplication on `ℚ`, equal to `*` by
`qmul_eq_mul`. -/
def qmul (a b : ℚ) : ℚ :=
  Rat.divInt (a.num * b.num) ((a.den : ℤ) * (b.den : ℤ))

/-- Kernel-computable addition on `ℚ`, equal to `+` by `qadd_eq_add`. -/
def qadd (a b : ℚ) : ℚ :=
  Rat.divInt (a.num * (b.den : ℤ) + b.num * (a.den : ℤ)) ((a.den : ℤ) * (b.den : ℤ))

/-- Kernel-computable division on `ℚ` (with `qdiv a 0 = 0`, as in Lean's
`/`), equal to `/` by `qdiv_eq_div`. -/
def qdiv (a b : ℚ) : ℚ :=
  Rat.divInt (a.num * (b.den : ℤ)) ((a.den : ℤ) * b.num)

/-- Sum of a list of rationals (`Series.sum`). -/
def qsum (qs : List ℚ) : ℚ :=
  qs.foldr qadd 0

/-- ASCII uppercase of one character (model of Python `str.upper`, whose
inputs here are currency codes). -/
def charUpper (c : Char) : Char :=
  if 97 ≤ c.toNat && c.toNat ≤ 122 then Char.ofNat (c.toNat - 32) else c

/-- Model of Python `str.upper`. -/
def strUpper (s : String) : String :=
  String.mk (s.data.map charUpper)

/-- Whitespace stripped from both ends of a character list. -/
def stripChars (cs : List Char) : List Char :=
  ((cs.dropWhile Char.isWhitespace).reverse.dropWhile Char.isWhitespace).reverse

/-- Model of Python `str.strip`. -/
def strStrip (s : String) : String :=
  String.mk (stripChars s.data)

/-- Python-style cell value: missing (None/NaN/NaT), numeric, or string. -/
inductive Value where
  | none : Value
  | num : ℚ → Value
  | str : String → Value
  deriving Repr, DecidableEq

/-- Series.fillna on one cell: replace a missing cell by the default. -/
def Value.fillna (v d : Value) : Value :=
  match v with
  | Value.none => d
  | w => w

/-- Digit list to natural number, most significant first. -/
def digitsVal (cs : List Char) : ℕ :=
  cs.foldl (fun a c => 10 * a + (c.toNat - 48)) 0

/-- Integer of magnitude `n` with sign taken from `neg`. -/
def intSign (neg : Bool) (n : ℕ) : ℤ :=
  if neg then -(n : ℤ) else (n : ℤ)

/-- Model of Python numeric-string parsing (shared by `pd.to_numeric` and
`float`): optional sign, decimal digits, optional fractional part, with
surrounding whitespace stripped.  Returns `Option.none` on anything that
does not parse as a plain decimal number (scientific notation, which the
Python parsers also accept, plays no role in this development). -/
def parseNumString (s : String) : Option ℚ :=
  let cs := stripChars s.data
  let neg : Bool := cs.head? == some '-'
  let body := if cs.head? == some '-' || cs.head? == some '+' then cs.tail else cs
  let sp := body.span Char.isDigit
  match sp.2 with
  | [] =>
    if sp.1.isEmpty then Option.none
    else some (Rat.divInt (intSign neg (digitsVal sp.1)) 1)
  | '.' :: frac =>
    if frac.all Char.isDigit && !(sp.1.isEmpty && frac.isEmpty) then
      some (Rat.divInt
        (intSign neg (digitsVal sp.1 * 10 ^ frac.length + digitsVal frac))
        ((10 : ℤ) ^ frac.length))
    else Option.none
  | _ => Option.none

/-- Model of `pd.to_numeric(col, errors='coerce')` on one cell: numbers
pass through, strings parse or coerce to missing, missing stays missing. -/
def pdToNumeric (v : Value) : Value :=
  match v with
  | Value.none => Value.none
  | Value.num q => Value.num q
  | Value.str s =>
    match parseNumString s with
    | some q => Value.num q
    | Option.none => Value.none

/-- True when a ten-character string has the shape `YYYY-MM-DD`. -/
def isIsoDate (s : String) : Bool :=
  match s.toList with
  | [y1, y2, y3, y4, '-', m1, m2, '-', d1, d2] =>
    [y1, y2, y3, y4, m1, m2, d1, d2].all Char.isDigit
  | _ => false

/-- Model of `pd.to_datetime(col, errors='coerce')` on one cell: a parsed
timestamp is represented canonically (a numeric cell by its epoch offset
number, an ISO date string by itself); unparseable strings coerce to the
missing marker `NaT`.  No claim inspects date values; only the stage's
totality and determinism matter. -/
def pdToDatetime (v : Value) : Value :=
  match v with
  | Value.none => Value.none
  | Value.num q => Value.num q
  | Value.str s => if isIsoDate s then Value.str s else Value.none

/-- One row of the working table over the seven required columns
(`required_columns` at data_cleaner.py line 16). -/
structure Row where
  order_id : Value
  date : Value
  product : Value
  price : Value
  currency : Value
  quantity : Value
  customer_id : Value
  deriving Repr, DecidableEq

/-- Raw input table: each required column is present (`some cells`) or
absent (`Option.none`); `nrows` is the table's row count. -/
structure RawTable where
  nrows : ℕ
  order_id : Option (List Value)
  date : Option (List Value)
  product : Option (List Value)
  price : Option (List Value)
  currency : Option (List Value)
  quantity : Option (List Value)
  customer_id : Option (List Value)
  deriving Repr, DecidableEq

/-- Cell `i` of a possibly-absent column, an absent column having been
synthesized as the constant `dflt` (lines 17-23). -/
def colCell (c : Option (List Value)) (dflt : Value) (i : ℕ) : Value :=
  match c with
  | some xs => xs.getD i Value.none
  | Option.none => dflt

/-- Row `i` after column reconciliation: an absent `customer_id` column is
filled with "UNKNOWN" (line 20), any other absent column with `None`
(line 22). -/
def reconcileRow (t : RawTable) (i : ℕ) : Row :=
  { order_id := colCell t.order_id Value.none i
    date := colCell t.date Value.none i
    product := colCell t.product Value.none i
    price := colCell t.price Value.none i
    currency := colCell t.currency Value.none i
    quantity := colCell t.quantity Value.none i
    customer_id := colCell t.customer_id (Value.str "UNKNOWN") i }

/-- Stage 1 (lines 15-23): ensure the seven required columns exist. -/
def reconcile (t : RawTable) : List Row :=
  (List.range t.nrows).map (reconcileRow t)

/-- Warning printed for a missing non-`customer_id` column (line 23). -/
def missingColMsg (c : String) : String :=
  "Warning: Missing column " ++ c ++ " filled with None"

/-- Warnings of stage 1, in the order the code walks `required_columns`;
a synthesized `customer_id` prints no warning (lines 19-23). -/
def reconcileWarnings (t : RawTable) : List String :=
  (if t.order_id.isNone then [missingColMsg "order_id"] else []) ++
  (if t.date.isNone then [missingColMsg "date"] else []) ++
  (if t.product.isNone then [missingColMsg "product"] else []) ++
  (if t.price.isNone then [missingColMsg "price"] else []) ++
  (if t.currency.isNone then [missingColMsg "currency"] else []) ++
  (if t.quantity.isNone then [missingColMsg "quantity"] else [])

/-- Stage 2 (lines 25-36): coerce `price` and `quantity` to numeric, then
fill missing `price` with 0 (line 34) and missing `quantity` with 1
(line 36). -/
def coerceNumerics (r : Row) : Row :=
  { r with
    price := (pdToNumeric r.price).fillna (Value.num 0)
    quantity := (pdToNumeric r.quantity).fillna (Value.num 1) }

/-- Worker for `df.drop_duplicates()`: drop any row equal to one already
seen, keeping first occurrences in order. -/
def dedupAux (seen : List Row) : List Row → List Row
  | [] => []
  | r :: rs => if r ∈ seen then dedupAux seen rs else r :: dedupAux (r :: seen) rs

/-- Stage 3 (lines 38-42): `df.drop_duplicates()` over all columns. -/
def dropDuplicates (rs : List Row) : List Row :=
  dedupAux [] rs

/-- Deduplication as the specification words it: keep each row's first
occurrence, remove every row equal to an earlier one, preserving order.
Stated independently of the implementation so that
`dropDuplicates = dedupSpec` is a meaningful refinement theorem. -/
def dedupSpec : List Row → List Row
  | [] => []
  | r :: rs => r :: dedupSpec (rs.filter (fun x => decide (x ≠ r)))
termination_by l => l.length
decreasing_by
  simp only [List.length_cons]
  exact Nat.lt_succ_of_le (List.length_filter_le _ _)

/-- Warning printed when the `date` column holds no value (line 49). -/
def noDatesMsg : String := "Warning: No valid dates found in date column"

/-- Stage 4 (lines 44-49): parse the `date` column only when it contains
at least one non-missing value, otherwise leave it alone with a warning. -/
def standardizeDates (rs : List Row) : List Row × List String :=
  if rs.any (fun r => decide (r.date ≠ Value.none)) then
    (rs.map (fun r => { r with date := pdToDatetime r.date }), [])
  else
    (rs, [noDatesMsg])

/-- Mean of the numeric cells of a column, skipping missing cells;
missing when no numeric cell exists (`Series.mean`). -/
def valuesMean (vs : List Value) : Value :=
  let qs := vs.filterMap (fun v =>
    match v with
    | Value.num q => some q
    | _ => Option.none)
  if qs.isEmpty then Value.none
  else Value.num (qdiv (qsum qs) (Rat.divInt (qs.length : ℤ) 1))

/-- Per-group mean of `price` over rows whose `product` equals `p`
(`groupby('product')['price'].transform('mean')`, line 55). -/
def productMean (rs : List Row) (p : Value) : Value :=
  valuesMean ((rs.filter (fun r => decide (r.product = p))).map Row.price)

/-- Warning printed when the whole `price` column is missing (line 61). -/
def noPricesMsg : String := "Warning: No valid prices found, filling with 0"

/-- Stage 5 (lines 51-62): when some price is present, fill missing
prices with the product mean (a missing `product` falls in no group, so
its rows get no group mean), then with the column mean taken after that
first fill, then with 0; when no price is present, set the whole column
to 0 with a warning. -/
def imputePrices (rs : List Row) : List Row × List String :=
  if rs.any (fun r => decide (r.price ≠ Value.none)) then
    let step1 := rs.map (fun r =>
      { r with price := (r.price.fillna
          (if r.product = Value.none then Value.none else productMean rs r.product)) })
    let globalMean := valuesMean (step1.map Row.price)
    let step2 := step1.map (fun r => { r with price := r.price.fillna globalMean })
    (step2.map (fun r => { r with price := r.price.fillna (Value.num 0) }), [])
  else
    (rs.map (fun r => { r with price := Value.num 0 }), [noPricesMsg])

/-- Stage 6 (line 65): fill missing `customer_id` with "UNKNOWN". -/
def fillCustomer (r : Row) : Row :=
  { r with customer_id := r.customer_id.fillna (Value.str "UNKNOWN") }

/-- Stage 7 (lines 67-74): re-coerce `quantity` to numeric, then keep only
rows whose quantity is a number strictly greater than 0 (a missing
quantity fails `> 0` and is dropped, subsuming the `notna` filter). -/
def filterQuantities (rs : List Row) : List Row :=
  (rs.map (fun r => { r with quantity := pdToNumeric r.quantity })).filter
    (fun r =>
      match r.quantity with
      | Value.num q => decide (0 < q)
      | _ => false)

/-- Python exceptions that can arise inside `convert_to_usd`. -/
inductive PyErr where
  | valueError : PyErr
  | typeError : PyErr
  | zeroDivisionError : PyErr
  deriving Repr, DecidableEq

/-- Model of Python `str` on a cell (`NaN` prints as "nan"; the code only
applies it to non-missing cells). -/
def pyStr (v : Value) : String :=
  match v with
  | Value.none => "nan"
  | Value.num q => toString q
  | Value.str s => s

/-- Model of Python `float` on a cell: numbers pass, strings parse or
raise `ValueError`, `None` raises `TypeError`. -/
def pyFloat (v : Value) : Except PyErr ℚ :=
  match v with
  | Value.num q => Except.ok q
  | Value.str s =>
    match parseNumString s with
    | some q => Except.ok q
    | Option.none => Except.error PyErr.valueError
  | Value.none => Except.error PyErr.typeError

/-- Dict lookup in the exchange-rate mapping (`currency in
conversion_rates` / `conversion_rates[currency]`). -/
def lookupRate : List (String × Value) → String → Option Value
  | [], _ => Option.none
  | (c, v) :: rest, code => if c = code then some v else lookupRate rest code

/-- Normalized currency code of a row (line 82): `str(...).upper().strip()`
when present, else "USD". -/
def normCurrency (r : Row) : String :=
  if r.currency ≠ Value.none then strStrip (strUpper (pyStr r.currency)) else "USD"

/-- The row's price as used by the converter (line 83): its numeric value
when the cell is numeric, 0 when missing. -/
def priceOrZero (v : Value) : ℚ :=
  match v with
  | Value.num q => q
  | _ => 0

/-- Warning printed for an unknown currency code (line 91). -/
def unknownCurrencyMsg (c : String) : String :=
  "Warning: Currency code " ++ c ++ " not found in exchange rates. Using 0."

/-- Warning printed by the `except` clause (line 94). -/
def convertErrMsg : String := "Warning: Error converting price. Using 0."

/-- Body of the `try` block of `convert_to_usd` (lines 82-92): USD rows
keep their price; known codes divide by their rate, raising
`ZeroDivisionError` on a zero rate and `TypeError` on a non-numeric rate;
unknown codes degrade to 0 with a warning. -/
def convertBody (rates : List (String × Value)) (r : Row) : Except PyErr (ℚ × List String) :=
  let currency := normCurrency r
  match (if r.price ≠ Value.none then pyFloat r.price else Except.ok 0) with
  | Except.error e => Except.error e
  | Except.ok price =>
    if currency = "USD" then Except.ok (price, [])
    else
      match lookupRate rates currency with
      | some (Value.num rate) =>
        if rate = 0 then Except.error PyErr.zeroDivisionError
        else Except.ok (qdiv price rate, [])
      | some _ => Except.error PyErr.typeError
      | Option.none => Except.ok (0, [unknownCurrencyMsg currency])

/-- Function `convert_to_usd` (lines 80-95): the body wrapped in
`except (ValueError, TypeError)`, which degrades those two errors to 0
with a warning; any other exception propagates. -/
def convert_to_usd (rates : List (String × Value)) (r : Row) : Except PyErr (ℚ × List String) :=
  match convertBody rates r with
  | Except.ok v => Except.ok v
  | Except.error PyErr.valueError => Except.ok (0, [convertErrMsg])
  | Except.error PyErr.typeError => Except.ok (0, [convertErrMsg])
  | Except.error e => Except.error e

/-- Elementwise product of two numeric cells; missing propagates
(pandas series multiplication, line 103). -/
def vmul (a b : Value) : Value :=
  match a, b with
  | Value.num x, Value.num y => Value.num (qmul x y)
  | _, _ => Value.none

/-- One cleaned output row: the seven columns plus the two derived
columns, kept as cells to let "never missing" be a statement rather than
a typing artifact. -/
structure CleanedRow where
  base : Row
  price_usd : Value
  total_sale_usd : Value
  deriving Repr, DecidableEq

/-- Stage 8 for one row (lines 97-106): convert the price, force
`price_usd` numeric with missing as 0 (line 100), then derive
`total_sale_usd = price_usd * quantity` forced numeric the same way
(lines 103-106). -/
def deriveRow (rates : List (String × Value)) (r : Row) : Except PyErr (CleanedRow × List String) :=
  match convert_to_usd rates r with
  | Except.error e => Except.error e
  | Except.ok pw =>
    let puV := (pdToNumeric (Value.num pw.1)).fillna (Value.num 0)
    let totV := (pdToNumeric (vmul puV r.quantity)).fillna (Value.num 0)
    Except.ok ({ base := r, price_usd := puV, total_sale_usd := totV }, pw.2)

/-- Left-to-right effectful map, aborting on the first raised exception
(`df.apply(convert_to_usd, axis=1)`). -/
def mapMExcept {α β : Type} (f : α → Except PyErr β) : List α → Except PyErr (List β)
  | [] => Except.ok []
  | x :: xs =>
    match f x with
    | Except.error e => Except.error e
    | Except.ok y =>
      match mapMExcept f xs with
      | Except.error e => Except.error e
      | Except.ok ys => Except.ok (y :: ys)

/-- Stages 1-7 composed in source order: reconcile columns, coerce
numerics, drop duplicates, standardize dates, impute prices, fill
customer ids, filter quantities. -/
def preparedRows (t : RawTable) : List Row :=
  filterQuantities
    (((imputePrices
        ((standardizeDates (dropDuplicates ((reconcile t).map coerceNumerics))).1)).1).map
      fillCustomer)

/-- Data-degradation warnings of stages 1-7, in emission order. -/
def prepareWarnings (t : RawTable) : List String :=
  reconcileWarnings t ++
    (standardizeDates (dropDuplicates ((reconcile t).map coerceNumerics))).2 ++
    (imputePrices ((standardizeDates (dropDuplicates ((reconcile t).map coerceNumerics))).1)).2

/-- Function `clean_data` (lines 8-120): the full pipeline.  Returns the cleaned
rows and the accumulated degradation warnings, or the uncaught exception
that aborted the run.  `conversion_rates` mirrors the dict copy at
line 78. -/
def clean_data (sales_df : RawTable) (exchange_rates : List (String × Value)) :
    Except PyErr (List CleanedRow × List String) :=
  let conversion_rates := exchange_rates
  match mapMExcept (deriveRow conversion_rates) (preparedRows sales_df) with
  | Except.error e => Except.error e
  | Except.ok results =>
    Except.ok
      (results.map Prod.fst,
        prepareWarnings sales_df ++ results.foldr (fun p acc => p.2 ++ acc) [])

/-- Timestamped output file name (lines 110-112), with the wall-clock
date stamp abstracted as a natural number. -/
def outputFilename (now : ℕ) : String :=
  "cleaned_sales_data_" ++ toString now ++ ".csv"

/-- Observable outcome of one run: the returned table (or abort) and the
saved file's name, present only when the run reached the save (line 113). -/
structure RunResult where
  table : Except PyErr (List CleanedRow × List String)
  savedFile : Option String
  deriving Repr

/-- One run of `clean_data` at wall-clock time `now`: the cleaned table
does not depend on `now`; only the saved file's name does. -/
def clean_data_run (now : ℕ) (t : RawTable) (rates : List (String × Value)) : RunResult :=
  let result := clean_data t rates
  { table := result
    savedFile :=
      match result with
      | Except.ok _ => some (outputFilename now)
      | Except.error _ => Option.none }

/-- The caller's view of the two arguments of `clean_data`. -/
structure CallerState where
  sales_df : RawTable
  exchange_rates : List (String × Value)
  deriving Repr, DecidableEq

/-- A call to `clean_data` as the caller sees it: the body reads
`sales_df` only through the copy made at line 13 and the rate dict only
through the comprehension copy at line 78, and writes neither argument,
so the caller's state is returned unchanged next to the result. -/
def clean_data_call (s : CallerState) : CallerState × Except PyErr (List CleanedRow × List String) :=
  let df := s.sales_df
  let conversion_rates := s.exchange_rates
  (s, clean_data df conversion_rates)

/-- Well-formed rate table per the spec's data model: every rate is a
positive number. -/
def ratesWF (rates : List (String × Value)) : Prop :=
  ∀ p ∈ rates, ∃ q : ℚ, p.2 = Value.num q ∧ 0 < q

/-- Decidable equality for `Except`, so that concrete pipeline outcomes
can be settled by `decide`. -/
def exceptDecEq {α β : Type} [DecidableEq α] [DecidableEq β] : DecidableEq (Except α β) :=
  fun a b =>
    match a, b with
    | Except.error x, Except.error y =>
      if h : x = y then Decidable.isTrue (by rw [h])
      else Decidable.isFalse (fun hc => h (Except.error.inj hc))
    | Except.ok x, Except.ok y =>
      if h : x = y then Decidable.isTrue (by rw [h])
      else Decidable.isFalse (fun hc => h (Except.ok.inj hc))
    | Except.error _, Except.ok _ => Decidable.isFalse (fun hc => Except.noConfusion hc)
    | Except.ok _, Except.error _ => Decidable.isFalse (fun hc => Except.noConfusion hc)

instance {α β : Type} [DecidableEq α] [DecidableEq β] : DecidableEq (Except α β) :=
  exceptDecEq

/-- The spec's missing-price example: product "Widget A" with prices
`[10, missing]` (order ids keep the two rows distinct, currency USD,
quantity 1). -/
def widgetTable : RawTable :=
  { nrows := 2
    order_id := some [Value.num 1, Value.num 2]
    date := Option.none
    product := some [Value.str "Widget A", Value.str "Widget A"]
    price := some [Value.num 10, Value.none]
    currency := some [Value.str "USD", Value.str "USD"]
    quantity := some [Value.num 1, Value.num 1]
    customer_id := Option.none }

/-- A well-formed row: price 10 EUR, quantity 1. -/
def eurRow : Row :=
  { order_id := Value.num 1
    date := Value.none
    product := Value.str "X"
    price := Value.num 10
    currency := Value.str "EUR"
    quantity := Value.num 1
    customer_id := Value.str "C1" }

/-- The row `eurRow` as a one-row raw table with all columns present. -/
def eurTable : RawTable :=
  { nrows := 1
    order_id := some [Value.num 1]
    date := some [Value.none]
    product := some [Value.str "X"]
    price := some [Value.num 10]
    currency := some [Value.str "EUR"]
    quantity := some [Value.num 1]
    customer_id := some [Value.str "C1"] }

/-- Rate table with EUR at 2 units per USD. -/
def eurRates : List (String × Value) := [("EUR", Value.num 2)]

/-- The cleaned row `clean_data eurTable eurRates` produces. -/
def eurCleaned : CleanedRow :=
  { base := eurRow, price_usd := Value.num 5, total_sale_usd := Value.num 5 }

/-- The full output of `clean_data eurTable eurRates`. -/
def eurOut : List CleanedRow × List String := ([eurCleaned], [noDatesMsg])

/-- The spec's invalid-quantity example row with `quantity = "abc"`
(price 5 USD). -/
def abcRow : Row :=
  { order_id := Value.num 1
    date := Value.none
    product := Value.str "X"
    price := Value.num 5
    currency := Value.str "USD"
    quantity := Value.str "abc"
    customer_id := Value.str "C1" }

/-- The row `abcRow` as a one-row raw table. -/
def abcTable : RawTable :=
  { nrows := 1
    order_id := some [Value.num 1]
    date := some [Value.none]
    product := some [Value.str "X"]
    price := some [Value.num 5]
    currency := some [Value.str "USD"]
    quantity := some [Value.str "abc"]
    customer_id := some [Value.str "C1"] }

/-- The spec's invalid-quantity example with `quantity = -1`. -/
def negTable : RawTable :=
  { nrows := 1
    order_id := some [Value.num 1]
    date := some [Value.none]
    product := some [Value.str "X"]
    price := some [Value.num 5]
    currency := some [Value.str "USD"]
    quantity := some [Value.num (-1)]
    customer_id := some [Value.str "C1"] }

/-! Faithfulness of the kernel-computable arithmetic. -/

theorem qmul_eq_mul (a b : ℚ) : qmul a b = a * b := by
  have ha : (a.den : ℚ) ≠ 0 := Nat.cast_ne_zero.mpr a.den_nz
  have hb : (b.den : ℚ) ≠ 0 := Nat.cast_ne_zero.mpr b.den_nz
  rw [qmul, Rat.divInt_eq_div]
  push_cast
  conv_rhs => rw [← Rat.num_div_den a, ← Rat.num_div_den b]
  field_simp

theorem qadd_eq_add (a b : ℚ) : qadd a b = a + b := by
  have ha : (a.den : ℚ) ≠ 0 := Nat.cast_ne_zero.mpr a.den_nz
  have hb : (b.den : ℚ) ≠ 0 := Nat.cast_ne_zero.mpr b.den_nz
  rw [qadd, Rat.divInt_eq_div]
  push_cast
  conv_rhs => rw [← Rat.num_div_den a, ← Rat.num_div_den b]
  field_simp

theorem qdiv_eq_div (a b : ℚ) : qdiv a b = a / b := by
  have ha : (a.den : ℚ) ≠ 0 := Nat.cast_ne_zero.mpr a.den_nz
  have hb : (b.den : ℚ) ≠ 0 := Nat.cast_ne_zero.mpr b.den_nz
  by_cases hbn : b.num = 0
  · have hb0 : b = 0 := Rat.num_eq_zero.mp hbn
    subst hb0
    simp [qdiv]
  · have hbn' : (b.num : ℚ) ≠ 0 := Int.cast_ne_zero.mpr hbn
    rw [qdiv, Rat.divInt_eq_div]
    push_cast
    conv_rhs => rw [← Rat.num_div_den a, ← Rat.num_div_den b]
    rw [div_div_div_comm]
    field_simp
    left
    ring

/-! Helper lemmas about the pipeline stages. -/

theorem mapMExcept_ok_mem {α β : Type} (f : α → Except PyErr β) :
    ∀ (xs : List α) (ys : List β), mapMExcept f xs = Except.ok ys →
      ∀ y ∈ ys, ∃ x ∈ xs, f x = Except.ok y := by
  intro xs
  induction xs with
  | nil =>
    intro ys h y hy
    simp only [mapMExcept, Except.ok.injEq] at h
    subst h
    simp at hy
  | cons x xs ih =>
    intro ys h y hy
    rw [mapMExcept] at h
    cases hfx : f x with
    | error e => rw [hfx] at h; exact Except.noConfusion h
    | ok y0 =>
      rw [hfx] at h
      cases hrec : mapMExcept f xs with
      | error e => rw [hrec] at h; exact Except.noConfusion h
      | ok ys0 =>
        rw [hrec] at h
        injection h with h'
        subst h'
        rcases List.mem_cons.mp hy with rfl | hmem
        · exact ⟨x, List.mem_cons_self x xs, hfx⟩
        · obtain ⟨x', hx', hfx'⟩ := ih ys0 hrec y hmem
          exact ⟨x', List.mem_cons_of_mem x hx', hfx'⟩

theorem mapMExcept_ok_of_forall {α β : Type} (f : α → Except PyErr β) :
    ∀ xs : List α, (∀ x ∈ xs, ∃ y, f x = Except.ok y) →
      ∃ ys, mapMExcept f xs = Except.ok ys := by
  intro xs
  induction xs with
  | nil => intro _; exact ⟨[], rfl⟩
  | cons x xs ih =>
    intro h
    obtain ⟨y, hy⟩ := h x (List.mem_cons_self x xs)
    obtain ⟨ys, hys⟩ := ih (fun x' hx' => h x' (List.mem_cons_of_mem x hx'))
    refine ⟨y :: ys, ?_⟩
    rw [mapMExcept, hy, hys]

theorem filterQuantities_mem (rs : List Row) (r : Row) (h : r ∈ filterQuantities rs) :
    ∃ q : ℚ, r.quantity = Value.num q ∧ 0 < q := by
  rw [filterQuantities] at h
  obtain ⟨hmem, hp⟩ := List.mem_filter.mp h
  cases hq : r.quantity with
  | num q =>
    rw [hq] at hp
    exact ⟨q, rfl, of_decide_eq_true hp⟩
  | none => rw [hq] at hp; simp at hp
  | str s => rw [hq] at hp; simp at hp

theorem deriveRow_ok_shape (rates : List (String × Value)) (r : Row) (cr : CleanedRow)
    (w : List String) (h : deriveRow rates r = Except.ok (cr, w)) :
    cr.base = r ∧ ∃ pu : ℚ, cr.price_usd = Value.num pu ∧
      cr.total_sale_usd = (pdToNumeric (vmul (Value.num pu) r.quantity)).fillna (Value.num 0) := by
  rw [deriveRow] at h
  cases hc : convert_to_usd rates r with
  | error e => rw [hc] at h; exact Except.noConfusion h
  | ok pw =>
    rw [hc] at h
    simp only [Except.ok.injEq, Prod.mk.injEq] at h
    obtain ⟨hcr, hw⟩ := h
    subst hcr
    refine ⟨rfl, pw.1, ?_, ?_⟩
    · simp [pdToNumeric, Value.fillna]
    · simp [pdToNumeric, Value.fillna]

theorem lookupRate_mem :
    ∀ (rates : List (String × Value)) (c : String) (v : Value),
      lookupRate rates c = some v → (c, v) ∈ rates := by
  intro rates
  induction rates with
  | nil => intro c v h; exact Option.noConfusion h
  | cons p rest ih =>
    intro c v h
    rw [lookupRate] at h
    by_cases hc : p.1 = c
    · rw [if_pos hc] at h
      injection h with h'
      subst h'
      subst hc
      exact List.mem_cons_self p rest
    · rw [if_neg hc] at h
      exact List.mem_cons_of_mem p (ih c v h)

theorem convertBody_error_wf (rates : List (String × Value)) (hwf : ratesWF rates)
    (r : Row) (e : PyErr) (h : convertBody rates r = Except.error e) :
    e = PyErr.valueError := by
  rw [convertBody] at h
  cases hp : (if r.price ≠ Value.none then pyFloat r.price else Except.ok (0 : ℚ)) with
  | error e' =>
    rw [hp] at h
    have he : e' = e := by simpa using h
    subst he
    by_cases hpr : r.price = Value.none
    · rw [if_neg (by simp [hpr])] at hp
      exact Except.noConfusion hp
    · rw [if_pos hpr] at hp
      cases hv : r.price with
      | none => exact absurd hv hpr
      | num q => rw [hv] at hp; exact Except.noConfusion hp
      | str s =>
        rw [hv, pyFloat] at hp
        cases hps : parseNumString s with
        | some q => rw [hps] at hp; exact Except.noConfusion hp
        | none => rw [hps] at hp; exact (Except.error.inj hp).symm
  | ok price =>
    rw [hp] at h
    by_cases hc : normCurrency r = "USD"
    · simp [hc] at h
    · cases hlk : lookupRate rates (normCurrency r) with
      | none => simp [hc, hlk] at h
      | some v =>
        obtain ⟨q, hq, hqpos⟩ := hwf _ (lookupRate_mem rates _ v hlk)
        rw [show v = Value.num q from hq] at hlk
        simp [hc, hlk, ne_of_gt hqpos] at h

theorem convert_to_usd_wf_ok (rates : List (String × Value)) (hwf : ratesWF rates)
    (r : Row) : ∃ v, convert_to_usd rates r = Except.ok v := by
  cases hb : convertBody rates r with
  | ok v => exact ⟨v, by rw [convert_to_usd, hb]⟩
  | error e =>
    have he := convertBody_error_wf rates hwf r e hb
    subst he
    exact ⟨(0, [convertErrMsg]), by rw [convert_to_usd, hb]⟩

theorem deriveRow_wf_ok (rates : List (String × Value)) (hwf : ratesWF rates)
    (r : Row) : ∃ y, deriveRow rates r = Except.ok y := by
  obtain ⟨v, hv⟩ := convert_to_usd_wf_ok rates hwf r
  exact ⟨_, by rw [deriveRow, hv]⟩

theorem dedupAux_eq_dedupSpec (rs : List Row) :
    ∀ seen : List Row,
      dedupAux seen rs = dedupSpec (rs.filter (fun x => decide (x ∉ seen))) := by
  induction rs with
  | nil => intro seen; simp only [List.filter_nil, dedupAux, dedupSpec]
  | cons r rs ih =>
    intro seen
    by_cases h : r ∈ seen
    · have hd : decide (r ∉ seen) = false := by simp [h]
      rw [dedupAux, if_pos h, List.filter_cons, hd]
      simp only [Bool.false_eq_true, if_false]
      exact ih seen
    · have hd : decide (r ∉ seen) = true := by simp [h]
      rw [dedupAux, if_neg h, List.filter_cons, hd]
      simp only [if_true]
      rw [dedupSpec, ih (r :: seen), List.filter_filter]
      congr 1
      apply congrArg
      apply List.filter_congr
      intro x _
      by_cases h1 : x = r <;> by_cases h2 : x ∈ seen <;> simp [h1, h2]

/-! Claims. -/

/-- C1: in the spec's own example (product "Widget A", prices
`[10, missing]`), the cleaned output's missing-price row ends with
price 0, not the group mean 10: the `fillna(0)` at data_cleaner.py
line 34 zero-fills missing prices during type coercion, so the
group-mean/global-mean fallback chain of lines 55-59 never sees a
missing value.  This evaluates the code at the failing input. -/
theorem C1_missing_price_becomes_zero_not_group_mean :
    (clean_data widgetTable []).map (fun out => out.1.map (fun cr => cr.base.price))
      = Except.ok [Value.num 10, Value.num 0] := by decide

/-- C2 counterexample: a row with `quantity = "abc"` is retained in the
cleaned output (with quantity coerced to 1), while the claim says it must
be absent: the output of cleaning `abcTable` is exactly one row, the
"abc" row (order id 1), with quantity 1. -/
theorem C2_unparseable_quantity_retained :
    (clean_data abcTable []).map
        (fun out => out.1.map (fun cr => (cr.base.order_id, cr.base.quantity)))
      = Except.ok [(Value.num 1, Value.num 1)] := by decide

/-- C2 amended: every row surviving the quantity filter has a numeric,
strictly positive quantity (so non-positive quantities such as -1 are
dropped, as the concrete `negTable` run confirms); but a quantity that
cannot be parsed as a number is replaced by 1 during type coercion
(line 36) and the row is retained. -/
theorem C2_amended_quantity_handling :
    (∀ (rs : List Row) (r : Row), r ∈ filterQuantities rs →
      ∃ q : ℚ, r.quantity = Value.num q ∧ 0 < q) ∧
    (∀ r : Row, pdToNumeric r.quantity = Value.none →
      (coerceNumerics r).quantity = Value.num 1) ∧
    (clean_data negTable []).map (fun out => out.1.length) = Except.ok 0 := by
  refine ⟨fun rs r h => filterQuantities_mem rs r h, ?_, by decide⟩
  intro r h
  simp [coerceNumerics, h, Value.fillna]

/-- C2 amended witness at concrete inputs: `eurRow` (quantity 1) survives
the filter with a positive numeric quantity, and `abcRow`'s unparseable
quantity coerces to 1. -/
theorem C2_amended_quantity_handling_witness :
    (∃ q : ℚ, eurRow.quantity = Value.num q ∧ 0 < q) ∧
    (coerceNumerics abcRow).quantity = Value.num 1 :=
  ⟨C2_amended_quantity_handling.1 [eurRow] eurRow (by decide),
   C2_amended_quantity_handling.2.1 abcRow (by decide)⟩

/-- C3 counterexample: with rate table `{"EUR": 0}` and a 10 EUR row, the
division at line 89 raises `ZeroDivisionError`, which the
`except (ValueError, TypeError)` clause at line 93 does not catch, so the
error propagates out of the conversion stage and aborts the whole batch —
contradicting "no such error ever propagates ... for any contents of the
row or of the rate table". -/
theorem C3_zero_rate_aborts_batch :
    clean_data eurTable [("EUR", Value.num 0)] = Except.error PyErr.zeroDivisionError := by
  decide

/-- C3 amended: a `ValueError` or `TypeError` raised inside the per-row
conversion is caught within that row and degrades its price to 0 with a
warning, and those are the only errors the row-level handler absorbs: any
error that does escape `convert_to_usd` is a `ZeroDivisionError` (zero
rate), which aborts the batch. -/
theorem C3_amended_error_handling (rates : List (String × Value)) (r : Row) :
    (convertBody rates r = Except.error PyErr.valueError →
      convert_to_usd rates r = Except.ok (0, [convertErrMsg])) ∧
    (convertBody rates r = Except.error PyErr.typeError →
      convert_to_usd rates r = Except.ok (0, [convertErrMsg])) ∧
    (∀ e, convert_to_usd rates r = Except.error e → e = PyErr.zeroDivisionError) := by
  refine ⟨fun h => by rw [convert_to_usd, h], fun h => by rw [convert_to_usd, h], ?_⟩
  intro e he
  rw [convert_to_usd] at he
  cases hb : convertBody rates r with
  | ok v => rw [hb] at he; exact Except.noConfusion he
  | error e' =>
    rw [hb] at he
    cases e' with
    | valueError => exact Except.noConfusion he
    | typeError => exact Except.noConfusion he
    | zeroDivisionError => exact (Except.error.inj he).symm

/-- C3 amended witness: a non-numeric rate value makes the body raise
`TypeError` (Python `float / str`), which the handler degrades to 0. -/
theorem C3_amended_error_handling_witness :
    convert_to_usd [("EUR", Value.str "bad")] eurRow = Except.ok (0, [convertErrMsg]) :=
  (C3_amended_error_handling [("EUR", Value.str "bad")] eurRow).2.1 (by decide)

/-- C4: per-row conversion semantics, for a well-formed rate table
(positive numeric rates, per the spec's RateTable data model) and a row
whose price is numeric-or-missing (as every pipeline row's is): a row
whose normalized currency is "USD" keeps its price (missing price read
as 0); a known code divides the price by its rate; an unknown code
degrades to `price_usd = 0` with a warning naming the code, and the row
is retained (the derive stage succeeds, with the row's fields
unchanged). -/
theorem C4_per_row_conversion (rates : List (String × Value)) (r : Row)
    (hwf : ratesWF rates) (hp : r.price = Value.none ∨ ∃ q : ℚ, r.price = Value.num q) :
    (normCurrency r = "USD" →
      convert_to_usd rates r = Except.ok (priceOrZero r.price, [])) ∧
    (∀ rate : ℚ, normCurrency r ≠ "USD" →
      lookupRate rates (normCurrency r) = some (Value.num rate) →
      convert_to_usd rates r = Except.ok (priceOrZero r.price / rate, [])) ∧
    (normCurrency r ≠ "USD" → lookupRate rates (normCurrency r) = Option.none →
      ∃ cr w, deriveRow rates r = Except.ok (cr, w) ∧ cr.base = r ∧
        cr.price_usd = Value.num 0 ∧ unknownCurrencyMsg (normCurrency r) ∈ w) := by
  have hps : (if r.price ≠ Value.none then pyFloat r.price else Except.ok (0 : ℚ))
      = Except.ok (priceOrZero r.price) := by
    rcases hp with h | ⟨q, h⟩ <;> simp [h, pyFloat, priceOrZero]
  refine ⟨?_, ?_, ?_⟩
  · intro hUSD
    have hbody : convertBody rates r = Except.ok (priceOrZero r.price, []) := by
      rw [convertBody, hps]
      simp [hUSD]
    rw [convert_to_usd, hbody]
  · intro rate hne hlk
    have hrate : rate ≠ 0 := by
      obtain ⟨q, hq, hqpos⟩ := hwf _ (lookupRate_mem rates _ _ hlk)
      have : rate = q := Value.num.inj hq
      exact this ▸ ne_of_gt hqpos
    have hbody : convertBody rates r
        = Except.ok (qdiv (priceOrZero r.price) rate, []) := by
      rw [convertBody, hps]
      simp [hne, hlk, hrate]
    rw [convert_to_usd, hbody, qdiv_eq_div]
  · intro hne hlk
    have hbody : convertBody rates r
        = Except.ok (0, [unknownCurrencyMsg (normCurrency r)]) := by
      rw [convertBody, hps]
      simp [hne, hlk]
    have hconv : convert_to_usd rates r
        = Except.ok (0, [unknownCurrencyMsg (normCurrency r)]) := by
      rw [convert_to_usd, hbody]
    have hd : deriveRow rates r = Except.ok
        ({ base := r, price_usd := Value.num 0,
           total_sale_usd := (pdToNumeric (vmul (Value.num 0) r.quantity)).fillna
             (Value.num 0) },
          [unknownCurrencyMsg (normCurrency r)]) := by
      rw [deriveRow, hconv]
      simp [pdToNumeric, Value.fillna]
    exact ⟨_, _, hd, rfl, rfl, by simp⟩

/-- C4 witness: the EUR row at rate 2 converts to `10 / 2`. -/
theorem C4_per_row_conversion_witness :
    convert_to_usd eurRates eurRow = Except.ok (priceOrZero eurRow.price / 2, []) :=
  (C4_per_row_conversion eurRates eurRow
    (by
      intro p hp
      have hp' : p = ("EUR", Value.num 2) := by simpa [eurRates] using hp
      rw [hp']
      exact ⟨2, rfl, by norm_num⟩)
    (Or.inr ⟨10, rfl⟩)).2.1 2 (by decide) (by decide)

/-- C5: every row of a successfully cleaned table has a numeric
`price_usd` and a numeric `total_sale_usd` that equals `price_usd`
times the row's (numeric) quantity exactly. -/
theorem C5_total_sale_exact (t : RawTable) (rates : List (String × Value))
    (out : List CleanedRow × List String) (h : clean_data t rates = Except.ok out) :
    ∀ cr ∈ out.1, ∃ pu q : ℚ, cr.price_usd = Value.num pu ∧
      cr.base.quantity = Value.num q ∧ cr.total_sale_usd = Value.num (pu * q) := by
  intro cr hcr
  rw [clean_data] at h
  cases hm : mapMExcept (deriveRow rates) (preparedRows t) with
  | error e => rw [hm] at h; exact Except.noConfusion h
  | ok results =>
    rw [hm] at h
    injection h with h'
    subst h'
    obtain ⟨p, hpmem, hp1⟩ := List.mem_map.mp hcr
    obtain ⟨r, hrmem, hdr⟩ := mapMExcept_ok_mem _ _ _ hm p hpmem
    have hrq : ∃ q : ℚ, r.quantity = Value.num q ∧ 0 < q := by
      rw [preparedRows] at hrmem
      exact filterQuantities_mem _ r hrmem
    obtain ⟨q, hq, hqpos⟩ := hrq
    obtain ⟨hbase, pu, hpu, htot⟩ :=
      deriveRow_ok_shape rates r p.1 p.2 (by rw [hdr])
    subst hp1
    refine ⟨pu, q, hpu, by rw [hbase, hq], ?_⟩
    rw [htot, hq]
    simp [vmul, pdToNumeric, Value.fillna, qmul_eq_mul]

/-- C5 witness: the cleaned EUR row has `price_usd = 5`, quantity 1 and
`total_sale_usd = 5 * 1`. -/
theorem C5_total_sale_exact_witness :
    ∃ pu q : ℚ, eurCleaned.price_usd = Value.num pu ∧
      eurCleaned.base.quantity = Value.num q ∧
      eurCleaned.total_sale_usd = Value.num (pu * q) :=
  C5_total_sale_exact eurTable eurRates eurOut (by decide) eurCleaned (by decide)

/-- C6: every row of a successfully cleaned table has a numeric quantity
strictly greater than 0. -/
theorem C6_output_quantity_positive (t : RawTable) (rates : List (String × Value))
    (out : List CleanedRow × List String) (h : clean_data t rates = Except.ok out) :
    ∀ cr ∈ out.1, ∃ q : ℚ, cr.base.quantity = Value.num q ∧ 0 < q := by
  intro cr hcr
  rw [clean_data] at h
  cases hm : mapMExcept (deriveRow rates) (preparedRows t) with
  | error e => rw [hm] at h; exact Except.noConfusion h
  | ok results =>
    rw [hm] at h
    injection h with h'
    subst h'
    obtain ⟨p, hpmem, hp1⟩ := List.mem_map.mp hcr
    obtain ⟨r, hrmem, hdr⟩ := mapMExcept_ok_mem _ _ _ hm p hpmem
    have hrq : ∃ q : ℚ, r.quantity = Value.num q ∧ 0 < q := by
      rw [preparedRows] at hrmem
      exact filterQuantities_mem _ r hrmem
    obtain ⟨q, hq, hqpos⟩ := hrq
    obtain ⟨hbase, _⟩ := deriveRow_ok_shape rates r p.1 p.2 (by rw [hdr])
    subst hp1
    exact ⟨q, by rw [hbase, hq], hqpos⟩

/-- C6 witness: the cleaned EUR row's quantity is the positive number 1. -/
theorem C6_output_quantity_positive_witness :
    ∃ q : ℚ, eurCleaned.base.quantity = Value.num q ∧ 0 < q :=
  C6_output_quantity_positive eurTable eurRates eurOut (by decide) eurCleaned (by decide)

/-- C7: `drop_duplicates` removes a row exactly when it equals an earlier
row (all seven columns compared), keeping first occurrences in input
order — the implementation refines the specification-side `dedupSpec` —
and on `[A, A, B]` with `A ≠ B` it returns `[A, B]`. -/
theorem C7_dedup_exact_first_occurrence :
    (∀ rs : List Row, dropDuplicates rs = dedupSpec rs) ∧
    (∀ A B : Row, A ≠ B → dropDuplicates [A, A, B] = [A, B]) := by
  have hmain : ∀ rs : List Row, dropDuplicates rs = dedupSpec rs := by
    intro rs
    rw [dropDuplicates, dedupAux_eq_dedupSpec]
    congr 1
    simp
  refine ⟨hmain, ?_⟩
  intro A B hAB
  rw [hmain, dedupSpec]
  have h1 : List.filter (fun x => decide (x ≠ A)) [A, B] = [B] := by
    simp [Ne.symm hAB]
  rw [h1, dedupSpec]
  simp only [List.filter_nil, dedupSpec]

/-- C7 witness: on two concrete distinct rows, `[A, A, B]` deduplicates
to `[A, B]`. -/
theorem C7_dedup_exact_first_occurrence_witness :
    dropDuplicates [eurRow, eurRow, abcRow] = [eurRow, abcRow] :=
  C7_dedup_exact_first_occurrence.2 eurRow abcRow (by decide)

/-- C8: missing required columns are synthesized, never fatal: an absent
`customer_id` column comes back filled with "UNKNOWN"; every other absent
required column comes back filled with the missing marker together with a
warning naming it; and for any input table and any well-formed rate
table, `clean_data` completes without raising. -/
theorem C8_missing_columns_synthesized (t : RawTable) (rates : List (String × Value))
    (hwf : ratesWF rates) :
    (t.customer_id = Option.none →
      ∀ r ∈ reconcile t, r.customer_id = Value.str "UNKNOWN") ∧
    (t.order_id = Option.none → (∀ r ∈ reconcile t, r.order_id = Value.none) ∧
      missingColMsg "order_id" ∈ reconcileWarnings t) ∧
    (t.date = Option.none → (∀ r ∈ reconcile t, r.date = Value.none) ∧
      missingColMsg "date" ∈ reconcileWarnings t) ∧
    (t.product = Option.none → (∀ r ∈ reconcile t, r.product = Value.none) ∧
      missingColMsg "product" ∈ reconcileWarnings t) ∧
    (t.price = Option.none → (∀ r ∈ reconcile t, r.price = Value.none) ∧
      missingColMsg "price" ∈ reconcileWarnings t) ∧
    (t.currency = Option.none → (∀ r ∈ reconcile t, r.currency = Value.none) ∧
      missingColMsg "currency" ∈ reconcileWarnings t) ∧
    (t.quantity = Option.none → (∀ r ∈ reconcile t, r.quantity = Value.none) ∧
      missingColMsg "quantity" ∈ reconcileWarnings t) ∧
    (∃ out, clean_data t rates = Except.ok out) := by
  have hmem : ∀ r ∈ reconcile t, ∃ i : ℕ, r = reconcileRow t i := by
    intro r hr
    obtain ⟨i, _, hi⟩ := List.mem_map.mp hr
    exact ⟨i, hi.symm⟩
  refine ⟨?_, ?_, ?_, ?_, ?_, ?_, ?_, ?_⟩
  · intro h r hr
    obtain ⟨i, rfl⟩ := hmem r hr
    simp [reconcileRow, colCell, h]
  · intro h
    exact ⟨fun r hr => by obtain ⟨i, rfl⟩ := hmem r hr; simp [reconcileRow, colCell, h],
      by simp [reconcileWarnings, h]⟩
  · intro h
    exact ⟨fun r hr => by obtain ⟨i, rfl⟩ := hmem r hr; simp [reconcileRow, colCell, h],
      by simp [reconcileWarnings, h]⟩
  · intro h
    exact ⟨fun r hr => by obtain ⟨i, rfl⟩ := hmem r hr; simp [reconcileRow, colCell, h],
      by simp [reconcileWarnings, h]⟩
  · intro h
    exact ⟨fun r hr => by obtain ⟨i, rfl⟩ := hmem r hr; simp [reconcileRow, colCell, h],
      by simp [reconcileWarnings, h]⟩
  · intro h
    exact ⟨fun r hr => by obtain ⟨i, rfl⟩ := hmem r hr; simp [reconcileRow, colCell, h],
      by simp [reconcileWarnings, h]⟩
  · intro h
    exact ⟨fun r hr => by obtain ⟨i, rfl⟩ := hmem r hr; simp [reconcileRow, colCell, h],
      by simp [reconcileWarnings, h]⟩
  · obtain ⟨ys, hys⟩ := mapMExcept_ok_of_forall (deriveRow rates) (preparedRows t)
      (fun r _ => deriveRow_wf_ok rates hwf r)
    exact ⟨_, by rw [clean_data, hys]⟩

/-- C8 witness: `widgetTable` misses its `date` and `customer_id`
columns; cleaning synthesizes "UNKNOWN" customer ids, warns about the
date column, and completes without raising. -/
theorem C8_missing_columns_synthesized_witness :
    (∀ r ∈ reconcile widgetTable, r.customer_id = Value.str "UNKNOWN") ∧
    missingColMsg "date" ∈ reconcileWarnings widgetTable ∧
    ∃ out, clean_data widgetTable [] = Except.ok out := by
  have h := C8_missing_columns_synthesized widgetTable []
    (by intro p hp; simp at hp)
  exact ⟨h.1 rfl, (h.2.2.1 rfl).2, h.2.2.2.2.2.2.2⟩

/-- C9: two runs of the pipeline on the same raw input and the same rate
table produce identical cleaned tables; only the timestamped output file
name can differ between the runs. -/
theorem C9_runs_identical (now₁ now₂ : ℕ) (t : RawTable)
    (rates : List (String × Value)) :
    (clean_data_run now₁ t rates).table = (clean_data_run now₂ t rates).table := rfl

/-- C10: a call to `clean_data` leaves both caller-owned arguments
unchanged — the pipeline reads the input table only through the copy of
line 13 and the rate mapping only through the dict copy of line 78 — and
its result is a pure function of them. -/
theorem C10_arguments_unchanged (s : CallerState) :
    (clean_data_call s).1.sales_df = s.sales_df ∧
    (clean_data_call s).1.exchange_rates = s.exchange_rates ∧
    (clean_data_call s).2 = clean_data s.sales_df s.exchange_rates :=
  ⟨rfl, rfl, rfl⟩

end SalesPipeline
